import Mathlib

/-
Shallow embedding of the color-contrast analysis core of VisionChroma-pro
(src/app.py and src/modules/*.py), together with theorems settling the
frozen claims about its specification.

Python strings are modelled as `List Char`.  Machine floats are modelled by
exact real arithmetic (`ℝ`); Python's `round(x, 2)` is modelled by
`round2` below (see its comment).  Integer and string manipulation is kept
computable; only the luminance/ratio layer, which uses the irrational
exponent 2.4, is noncomputable.
-/

namespace VisionChroma

/-! ### Character utilities (Python semantics) -/

/-- The character class `[0-9A-Fa-f]` used by `int(s, 16)` and the regexes
in src/app.py (48-57 = `0`-`9`, 97-102 = `a`-`f`, 65-70 = `A`-`F`). -/
def isHexDigit (c : Char) : Bool :=
  ((48 ≤ c.toNat && c.toNat ≤ 57) || (97 ≤ c.toNat && c.toNat ≤ 102)
    || (65 ≤ c.toNat && c.toNat ≤ 70))

/-- Numeric value of a hex digit (only meaningful when `isHexDigit c`). -/
def hexVal (c : Char) : ℤ :=
  if 48 ≤ c.toNat && c.toNat ≤ 57 then (c.toNat : ℤ) - 48
  else if 65 ≤ c.toNat && c.toNat ≤ 70 then (c.toNat : ℤ) - 55
  else (c.toNat : ℤ) - 87

/-- ASCII whitespace accepted by Python's `str.strip()` and `int()`/`float()`
(Python additionally accepts non-ASCII unicode whitespace, which the
analysed code never produces). -/
def isPySpace (c : Char) : Bool :=
  (c = ' ' || c = '\t' || c = '\n' || c = '\x0d' || c = '\x0b' || c = '\x0c')

def isSign (c : Char) : Bool := (c = '+' || c = '-')

/-- Python `str.strip()`: remove leading and trailing whitespace. -/
def pyStrip (s : List Char) : List Char :=
  ((s.dropWhile isPySpace).reverse.dropWhile isPySpace).reverse

/-- Python `str.strip(chars)`: remove leading and trailing characters that
belong to the set `bad`. -/
def pyStripChars (bad : Char → Bool) (s : List Char) : List Char :=
  ((s.dropWhile bad).reverse.dropWhile bad).reverse

/-! ### `int(s, 16)` on the at-most-two-character slices used by
`hex_to_rgb` (src/app.py lines 179-187)

Python's `int(s, 16)` strips whitespace, accepts an optional sign, then
requires hex digits.  On strings of length ≤ 2 (the only shapes
`hex_to_rgb` ever passes) the accepted forms are exactly: one hex digit;
two hex digits; a sign or a whitespace character followed by a hex digit;
a hex digit followed by a whitespace character.  (`"0x"` alone is a
`ValueError` in Python, matching the `none` here.)  `hex_to_rgb` never
produces slices of length ≥ 3, so that case is mapped to `none`. -/
def int16 : List Char → Option ℤ
  | [c] => if isHexDigit c then some (hexVal c) else none
  | [c1, c2] =>
      if isHexDigit c1 && isHexDigit c2 then some (16 * hexVal c1 + hexVal c2)
      else if isSign c1 && isHexDigit c2 then
        some (if c1 = '-' then -hexVal c2 else hexVal c2)
      else if isPySpace c1 && isHexDigit c2 then some (hexVal c2)
      else if isHexDigit c1 && isPySpace c2 then some (hexVal c1)
      else none
  | _ => none

/-- src/app.py lines 179-187:
```
def hex_to_rgb(hex_color):
    try:
        h = hex_color.lstrip('#')
        if len(h) == 3:
            h = ''.join([c*2 for c in h])
        r = int(h[0:2], 16); g = int(h[2:4], 16); b = int(h[4:6], 16)
        return (r, g, b)
    except:
        return (0,0,0)
```
Any failure of the three `int` calls aborts the `try` block, so the result
is (0,0,0) unless all three slices parse. -/
def hex_to_rgb (hex_color : List Char) : ℤ × ℤ × ℤ :=
  let h := hex_color.dropWhile (fun c => c = '#')
  let h := if h.length = 3 then h.flatMap (fun c => [c, c]) else h
  match int16 (h.take 2), int16 ((h.drop 2).take 2), int16 ((h.drop 4).take 2) with
  | some r, some g, some b => (r, g, b)
  | _, _, _ => (0, 0, 0)

/-! ### Luminance and contrast (src/app.py lines 189-209) -/

/-- src/app.py lines 189-194: sRGB channel linearisation with the
irrational exponent 2.4 (modelled by `Real.rpow`). -/
noncomputable def srgb_to_linear_channel (c : ℝ) : ℝ :=
  let c := c / 255
  if c ≤ 0.03928 then c / 12.92 else ((c + 0.055) / 1.055) ^ (2.4 : ℝ)

/-- src/app.py lines 196-198. -/
noncomputable def relative_luminance (rgb : ℝ × ℝ × ℝ) : ℝ :=
  0.2126 * srgb_to_linear_channel rgb.1 + 0.7152 * srgb_to_linear_channel rgb.2.1
    + 0.0722 * srgb_to_linear_channel rgb.2.2

/-- Python `round(x, 2)`.  Python rounds half to even on binary floats;
this model rounds half up.  The two differ only when `100 * x` is exactly
a half-integer, which none of the values handled in this development hit.
-/
noncomputable def round2 (x : ℝ) : ℝ := (⌊x * 100 + 1 / 2⌋ : ℤ) / 100

/-- Cast a parsed channel triple to reals. -/
def rgbToReal (t : ℤ × ℤ × ℤ) : ℝ × ℝ × ℝ := ((t.1 : ℝ), (t.2.1 : ℝ), (t.2.2 : ℝ))

/-- src/app.py lines 200-209:
```
def contrast_ratio(hex1, hex2):
    try:
        L1 = relative_luminance(hex_to_rgb(hex1))
        L2 = relative_luminance(hex_to_rgb(hex2))
        lighter = max(L1, L2); darker = min(L1, L2)
        ratio = (lighter + 0.05) / (darker + 0.05)
        return round(ratio, 2)
    except Exception:
        return 1.0
```
The `except` branch is unreachable for string inputs: `hex_to_rgb` is
total, and the parsed channels are ≥ -15 (see `int16_bounds`), so the
denominator is ≥ 0.05 - 15/255/12.92 > 0 and the division never fails. -/
noncomputable def contrast_ratio (hex1 hex2 : List Char) : ℝ :=
  let L1 := relative_luminance (rgbToReal (hex_to_rgb hex1))
  let L2 := relative_luminance (rgbToReal (hex_to_rgb hex2))
  round2 ((max L1 L2 + 0.05) / (min L1 L2 + 0.05))

/-! ### Colorblind simulation (src/modules/colorblind_simulator.py and
src/app.py lines 382-395) -/

inductive Mode where
  | protanopia
  | deuteranopia
  | tritanopia
deriving DecidableEq

/-- src/modules/colorblind_simulator.py lines 3-7: the `MATRICES` dict. -/
def MATRICES : Mode → Fin 3 → Fin 3 → ℝ
  | .protanopia => fun i j =>
      match i, j with
      | 0, 0 => 0.567 | 0, 1 => 0.433 | 0, 2 => 0.0
      | 1, 0 => 0.558 | 1, 1 => 0.442 | 1, 2 => 0.0
      | 2, 0 => 0.0   | 2, 1 => 0.242 | 2, 2 => 0.758
  | .deuteranopia => fun i j =>
      match i, j with
      | 0, 0 => 0.625 | 0, 1 => 0.375 | 0, 2 => 0.0
      | 1, 0 => 0.7   | 1, 1 => 0.3   | 1, 2 => 0.0
      | 2, 0 => 0.0   | 2, 1 => 0.3   | 2, 2 => 0.7
  | .tritanopia => fun i j =>
      match i, j with
      | 0, 0 => 0.95  | 0, 1 => 0.05  | 0, 2 => 0.0
      | 1, 0 => 0.0   | 1, 1 => 0.433 | 1, 2 => 0.567
      | 2, 0 => 0.0   | 2, 1 => 0.475 | 2, 2 => 0.525

/-- Iteration order of the `MATRICES` dict (Python dicts preserve
insertion order). -/
def modes : List Mode := [.protanopia, .deuteranopia, .tritanopia]

/-- src/app.py lines 382-385:
```
def colorblind_transform(rgb, mat):
    flat = np.array(rgb).astype(float) / 255.0
    transformed = flat @ mat.T
    return np.clip(transformed, 0, 1) * 255
```
`(flat @ mat.T)[i] = sum_j flat[j] * mat[i][j]`; `np.clip(x,0,1)` is
`min 1 (max 0 x)` componentwise. -/
noncomputable def colorblind_transform (rgb : ℝ × ℝ × ℝ) (mat : Fin 3 → Fin 3 → ℝ) :
    ℝ × ℝ × ℝ :=
  let f : Fin 3 → ℝ := fun i =>
    min 1 (max 0 (rgb.1 / 255 * mat i 0 + rgb.2.1 / 255 * mat i 1
      + rgb.2.2 / 255 * mat i 2)) * 255
  (f 0, f 1, f 2)

/-- src/app.py lines 387-395. -/
noncomputable def colorblind_contrast_ratio (fg_hex bg_hex : List Char) (cb_type : Mode) : ℝ :=
  let fg_cb := colorblind_transform (rgbToReal (hex_to_rgb fg_hex)) (MATRICES cb_type)
  let bg_cb := colorblind_transform (rgbToReal (hex_to_rgb bg_hex)) (MATRICES cb_type)
  let l1 := relative_luminance fg_cb
  let l2 := relative_luminance bg_cb
  round2 ((max l1 l2 + 0.05) / (min l1 l2 + 0.05))

/-! ### Issue classification (src/app.py lines 691-720)

```
ratio = contrast_ratio(pair['fg'], pair['bg'])
is_issue = ratio < threshold
for cb_type in MATRICES:
    cb_ratio = colorblind_contrast_ratio(pair['fg'], pair['bg'], cb_type)
    cb_ratios[cb_type] = cb_ratio
    if cb_ratio < threshold:
        is_issue = True
if is_issue:
    issues.append({... 'min_ratio': min([ratio] + list(cb_ratios.values())),
                   'is_colorblind_issue': any(r < threshold for r in cb_ratios.values())})
```
-/

/-- The loop's `is_issue` flag: the normal ratio or any deficiency-mode
ratio below the threshold. -/
noncomputable def is_issue (fg bg : List Char) (threshold : ℝ) : Bool :=
  decide (contrast_ratio fg bg < threshold)
    || modes.any (fun m => decide (colorblind_contrast_ratio fg bg m < threshold))

/-- The recorded `'is_colorblind_issue'` field:
`any(r < threshold for r in cb_ratios.values())` — it does NOT require the
normal ratio to be above the threshold. -/
noncomputable def is_colorblind_issue (fg bg : List Char) (threshold : ℝ) : Bool :=
  modes.any (fun m => decide (colorblind_contrast_ratio fg bg m < threshold))

/-- One entry of the `issues` list built by the classification loop.
`ratio` is stored as `round(ratio, 2)`; since `contrast_ratio` already
returns a rounded value this second rounding is the identity, but it is
kept for fidelity. -/
structure Issue where
  fg : List Char
  bg : List Char
  ratio : ℝ
  cb_prot : ℝ
  cb_deut : ℝ
  cb_trit : ℝ
  min_ratio : ℝ
  cb_specific : Bool

/-- Build the issue record appended for a pair that the loop classifies as
an issue.  `min_ratio = min([ratio] + list(cb_ratios.values()))`, a left
fold of `min` over the four (already rounded) ratios in dict order. -/
noncomputable def mkIssue (fg bg : List Char) (threshold : ℝ) : Issue :=
  let r := contrast_ratio fg bg
  let p := colorblind_contrast_ratio fg bg .protanopia
  let d := colorblind_contrast_ratio fg bg .deuteranopia
  let t := colorblind_contrast_ratio fg bg .tritanopia
  { fg := fg
    bg := bg
    ratio := round2 r
    cb_prot := round2 p
    cb_deut := round2 d
    cb_trit := round2 t
    min_ratio := min (min (min r p) d) t
    cb_specific := is_colorblind_issue fg bg threshold }

/-! ### Color cleaning and pair generation (src/app.py lines 662-686) -/

/-- Regex `^#?[0-9a-fA-F]{3,6}$` (src/app.py line 666). -/
def matchHex3to6 (s : List Char) : Bool :=
  let t := match s with
    | '#' :: rest => rest
    | _ => s
  t.all isHexDigit && decide (3 ≤ t.length) && decide (t.length ≤ 6)

/-- Leading run of decimal digits. -/
def takeDigits (s : List Char) : List Char :=
  s.takeWhile (fun c => 48 ≤ c.toNat && c.toNat ≤ 57)

/-- Value of a (nonempty) decimal digit run. -/
def digitsVal (s : List Char) : ℕ := s.foldl (fun a c => 10 * a + (c.toNat - 48)) 0

/-- Regex `^rgb\(\s*\d+,\s*\d+,\s*\d+\s*\)$` (src/app.py line 671),
returning the three channel values on a match. -/
def matchRgbTriple (s : List Char) : Option (ℕ × ℕ × ℕ) :=
  match s with
  | 'r' :: 'g' :: 'b' :: '(' :: rest =>
    let rest := rest.dropWhile isPySpace
    let d1 := takeDigits rest
    match rest.drop d1.length with
    | ',' :: rest2 =>
      let rest2 := rest2.dropWhile isPySpace
      let d2 := takeDigits rest2
      match rest2.drop d2.length with
      | ',' :: rest3 =>
        let rest3 := rest3.dropWhile isPySpace
        let d3 := takeDigits rest3
        match (rest3.drop d3.length).dropWhile isPySpace with
        | [')'] =>
          if d1 ≠ [] && d2 ≠ [] && d3 ≠ [] then
            some (digitsVal d1, digitsVal d2, digitsVal d3)
          else none
        | _ => none
      | _ => none
    | _ => none
  | _ => none

/-- Uppercase hex digit character for `n < 16`. -/
def hexDigitChar (n : ℕ) : Char :=
  if n < 10 then Char.ofNat (48 + n) else Char.ofNat (55 + n)

/-- Hex digits of `n`, with explicit fuel so that the definition reduces
structurally (`fuel ≥ n` always suffices). -/
def toHexAux : ℕ → ℕ → List Char
  | 0, _ => []
  | _ + 1, 0 => []
  | fuel + 1, n + 1 => toHexAux fuel ((n + 1) / 16) ++ [hexDigitChar ((n + 1) % 16)]

/-- Hex digits (uppercase, no leading zeros) of a natural number. -/
def toHexDigits (n : ℕ) : List Char := toHexAux n n

/-- Python `'{:02X}'.format(n)` for `n ≥ 0`: uppercase hex, zero-padded to
width 2 (wider if needed).  (The cleaning branch formats with `{:02x}` and
then applies `.upper()` to the whole string, which is the same.) -/
def fmt02X (n : ℕ) : List Char :=
  let d := if n = 0 then ['0'] else toHexDigits n
  if d.length < 2 then '0' :: d else d

/-- The cleaning step of the analysis loop (src/app.py lines 662-677):
strip whitespace and quotes, keep `#?[0-9a-fA-F]{3,6}` (prepending `#` if
missing), convert `rgb(r, g, b)` to uppercase hex, drop everything else.
-/
def cleanColor (s : List Char) : Option (List Char) :=
  if (pyStrip s).length = 0 then none
  else
    let c := pyStripChars (fun ch => ch = '\'')
      (pyStripChars (fun ch => ch = '"') (pyStrip s))
    if matchHex3to6 c then
      some (match c with
        | '#' :: _ => c
        | _ => '#' :: c)
    else
      match matchRgbTriple c with
      | some (r, g, b) => some ('#' :: (fmt02X r ++ fmt02X g ++ fmt02X b))
      | none => none

/-- src/app.py lines 662-680: clean the extracted colors, keeping order
and skipping failures, then `cleaned_colors = cleaned_colors[:20]`. -/
def cleaned_colors (colors : List (List Char)) : List (List Char) :=
  (colors.filterMap cleanColor).take 20

/-- `itertools.combinations(l, 2)`: ordered index pairs i < j. -/
def combinations2 : List α → List (α × α)
  | [] => []
  | x :: xs => xs.map (fun y => (x, y)) ++ combinations2 xs

/-- src/app.py lines 682-686:
```
for fg, bg in combinations(cleaned_colors, 2):
    pairs.append({'fg': fg, 'bg': bg})
    pairs.append({'fg': bg, 'bg': fg})
```
-/
def generate_pairs (cleaned : List (List Char)) : List (List Char × List Char) :=
  (combinations2 cleaned).flatMap (fun p => [(p.1, p.2), (p.2, p.1)])

/-- The classification loop over all generated pairs (src/app.py
lines 691-717): the issues, in pair-generation order. -/
noncomputable def analyze_issues (colors : List (List Char)) (threshold : ℝ) : List Issue :=
  ((generate_pairs (cleaned_colors colors)).filter
    (fun p => is_issue p.1 p.2 threshold)).map (fun p => mkIssue p.1 p.2 threshold)

/-! ### Ranking (src/app.py line 720):
`issues = sorted(issues, key=lambda x: x['min_ratio'])[:15]`

Python's `sorted` is stable.  A stable ascending sort is extensionally
unique, so it is modelled by stable insertion sort: each element is
inserted before the first element with a key ≥ its own, and the input is
folded from the right so that earlier elements are inserted later and land
before equal keys. -/

noncomputable def insertIssue (x : Issue) : List Issue → List Issue
  | [] => [x]
  | y :: ys => if x.min_ratio ≤ y.min_ratio then x :: y :: ys else y :: insertIssue x ys

noncomputable def sortIssues (l : List Issue) : List Issue := l.foldr insertIssue []

noncomputable def rank_issues (l : List Issue) : List Issue := (sortIssues l).take 15

/-! ### Scores -/

/-- src/app.py lines 512-520:
```
def compute_overall_score(num_issues, total_pairs, flesch, fk_grade):
    s = 100
    s -= min(60, num_issues * 3)
    if flesch is not None:
        if flesch < 50: s -= 10
        elif flesch < 65: s -= 5
    return max(0, min(100, int(round(s))))
```
`s` is always an integer, so `int(round(s)) = s`; `total_pairs` and
`fk_grade` are unused by the function body. -/
def compute_overall_score (num_issues : ℕ) (_total_pairs : ℕ) (flesch : Option ℚ)
    (_fk_grade : Option ℚ) : ℤ :=
  let s : ℤ := 100 - min 60 ((num_issues : ℤ) * 3)
  let s : ℤ :=
    match flesch with
    | none => s
    | some f => if f < 50 then s - 10 else if f < 65 then s - 5 else s
  max 0 (min 100 s)

namespace AccessibilityCheck

/-- The `'contrast'` component of `compute_score_breakdown`
(src/modules/accessibility_check.py lines 57-66):
```
breakdown = {'contrast': 100, ...}
if total_pairs > 0:
    issue_percentage = (num_issues / total_pairs) * 100
    breakdown['contrast'] = max(0, 100 - (issue_percentage * 0.6))
```
-/
def contrast_breakdown (num_issues total_pairs : ℕ) : ℚ :=
  if 0 < total_pairs then
    max 0 (100 - ((num_issues : ℚ) / (total_pairs : ℚ) * 100) * 0.6)
  else 100

end AccessibilityCheck

namespace AccessibilityEnhancements

/-- The `contrast_score` of `compute_score_breakdown`
(src/modules/accessibility_enhancements.py line 289):
```
contrast_score = max(0, 100 - (num_issues / max(1, total_pairs)) * 100)
```
-/
def contrast_score (num_issues total_pairs : ℕ) : ℚ :=
  max 0 (100 - ((num_issues : ℚ) / ((max 1 total_pairs : ℕ) : ℚ)) * 100)

end AccessibilityEnhancements

/-! ### `normalize_hex` (src/app.py lines 153-177) -/

/-- The decimal-literal grammar accepted by Python `float(s)`: optional
surrounding whitespace, optional sign, `digits[.digits]` or `.digits`,
optional `e`/`E` exponent.  The result `(neg, N, sc)` represents the exact
value `(-1)^neg * N * 10^sc`.  Python additionally accepts `inf`/`nan`
(which make the enclosing `int(...)` raise, i.e. `none` overall, so
omitting them is faithful here) and single underscores between digits,
which nothing in this development exercises. -/
def parseFloatParts (s : List Char) : Option (Bool × ℕ × ℤ) :=
  let t := pyStrip s
  let su : Bool × List Char :=
    match t with
    | '+' :: r => (false, r)
    | '-' :: r => (true, r)
    | _ => (false, t)
  let ip := takeDigits su.2
  let afterIp := su.2.drop ip.length
  let mant : Option (ℕ × ℕ × List Char) :=
    match afterIp with
    | '.' :: rest2 =>
      let fp := takeDigits rest2
      if ip = [] && fp = [] then none
      else some (digitsVal (ip ++ fp), fp.length, rest2.drop fp.length)
    | _ => if ip = [] then none else some (digitsVal ip, 0, afterIp)
  match mant with
  | none => none
  | some (n, fracLen, rest) =>
    match rest with
    | [] => some (su.1, n, -(fracLen : ℤ))
    | e :: r2 =>
      if e = 'e' || e = 'E' then
        let er : Bool × List Char :=
          match r2 with
          | '+' :: rr => (false, rr)
          | '-' :: rr => (true, rr)
          | _ => (false, r2)
        let d := takeDigits er.2
        if d = [] || er.2.drop d.length ≠ [] then none
        else
          let ev : ℤ := if er.1 then -(digitsVal d : ℤ) else (digitsVal d : ℤ)
          some (su.1, n, ev - (fracLen : ℤ))
      else none

/-- Python `int(float(s))` on a string: parse the exact decimal value
`(-1)^neg * N * 10^sc` and truncate toward zero (`none` models the
exception path).  Python's `float` first rounds the decimal to the nearest
binary double; that rounding only matters beyond 17 significant digits and
is not modelled — no input handled in this development is affected. -/
def pyIntFloat (s : List Char) : Option ℤ :=
  match parseFloatParts s with
  | none => none
  | some (neg, n, sc) =>
    let mag : ℕ := if 0 ≤ sc then n * 10 ^ sc.toNat else n / 10 ^ (-sc).toNat
    some (if neg then -(mag : ℤ) else (mag : ℤ))

/-- Python `'{:02X}'.format(n)` for any integer: a negative value is
rendered as `-` followed by its digits (`format(-5,'02X') = '-5'` — the
sign counts toward the width, so no zero padding occurs for negatives
here). -/
def fmt02Xint (n : ℤ) : List Char :=
  if n < 0 then '-' :: (if (-n).toNat = 0 then ['0'] else toHexDigits (-n).toNat)
  else fmt02X n.toNat

/-- Prefix match of `rgba?\(([^)]+)\)` (src/app.py line 157), returning
the nonempty capture between the parentheses. -/
def matchRgbaBody (h : List Char) : Option (List Char) :=
  match h with
  | 'r' :: 'g' :: 'b' :: rest =>
    let afterParen : Option (List Char) :=
      match rest with
      | 'a' :: '(' :: r => some r
      | '(' :: r => some r
      | _ => none
    match afterParen with
    | none => none
    | some r =>
      let body := r.takeWhile (fun c => c ≠ ')')
      if body ≠ [] && r.drop body.length ≠ [] then some body else none
  | _ => none

/-- The named-color dictionary of `normalize_hex` (src/app.py
lines 171-176), looked up on the lowercased input. -/
def namedLookup (h : List Char) : Option (List Char) :=
  let l := h.map Char.toLower
  if l = ['b', 'l', 'a', 'c', 'k'] then some ['#', '0', '0', '0', '0', '0', '0']
  else if l = ['w', 'h', 'i', 't', 'e'] then some ['#', 'F', 'F', 'F', 'F', 'F', 'F']
  else if l = ['r', 'e', 'd'] then some ['#', 'F', 'F', '0', '0', '0', '0']
  else if l = ['b', 'l', 'u', 'e'] then some ['#', '0', '0', '0', '0', 'F', 'F']
  else if l = ['g', 'r', 'e', 'e', 'n'] then some ['#', '0', '0', '8', '0', '0', '0']
  else if l = ['g', 'r', 'a', 'y'] then some ['#', '8', '0', '8', '0', '8', '0']
  else if l = ['g', 'r', 'e', 'y'] then some ['#', '8', '0', '8', '0', '8', '0']
  else if l = ['y', 'e', 'l', 'l', 'o', 'w'] then some ['#', 'F', 'F', 'F', 'F', '0', '0']
  else none

/-- src/app.py lines 153-177:
```
def normalize_hex(h):
    h = str(h).strip()
    if not h: return None
    m = re.match(r'rgba?\(([^)]+)\)', h)
    if m:
        parts = m.group(1).split(',')
        try:
            r, g, b = [int(float(p.strip())) for p in parts[:3]]
            return '#{:02X}{:02X}{:02X}'.format(r, g, b)
        except:
            return None
    m2 = re.match(r'#([0-9A-Fa-f]{3,8})', h)
    if m2:
        hh = m2.group(1)
        if len(hh) == 3: hh = ''.join([c*2 for c in hh])
        return '#' + hh.upper()
    named = {...}
    if h.lower() in named: return named[h.lower()]
    return None
```
The unpacking `r, g, b = [...]` raises unless `parts[:3]` has exactly
three elements, and each `int(float(...))` may raise; both exceptions
yield `None`.  Note that the channel values are NOT range-checked.  The
inner `p.strip()` is subsumed by the stripping `float` itself performs. -/
def normalize_hex (s : List Char) : Option (List Char) :=
  let h := pyStrip s
  if h = [] then none
  else
    match matchRgbaBody h with
    | some body =>
      match (body.splitOn ',').take 3 with
      | [p1, p2, p3] =>
        match pyIntFloat p1, pyIntFloat p2, pyIntFloat p3 with
        | some r, some g, some b =>
          some ('#' :: (fmt02Xint r ++ fmt02Xint g ++ fmt02Xint b))
        | _, _, _ => none
      | _ => none
    | none =>
      match h with
      | '#' :: rest =>
        let d := (rest.takeWhile isHexDigit).take 8
        if 3 ≤ d.length then
          let hh := if d.length = 3 then d.flatMap (fun c => [c, c]) else d
          some ('#' :: hh.map Char.toUpper)
        else namedLookup h
      | _ => namedLookup h

/-! ### Spec-side definitions, used only to compare against the code-side
definitions above -/

/-- The three deficiency matrices exactly as printed in the spec. -/
def spec_matrix : Mode → Fin 3 → Fin 3 → ℝ
  | .protanopia => fun i j =>
      match i, j with
      | 0, 0 => 0.567 | 0, 1 => 0.433 | 0, 2 => 0.0
      | 1, 0 => 0.558 | 1, 1 => 0.442 | 1, 2 => 0.0
      | 2, 0 => 0.0   | 2, 1 => 0.242 | 2, 2 => 0.758
  | .deuteranopia => fun i j =>
      match i, j with
      | 0, 0 => 0.625 | 0, 1 => 0.375 | 0, 2 => 0.0
      | 1, 0 => 0.7   | 1, 1 => 0.3   | 1, 2 => 0.0
      | 2, 0 => 0.0   | 2, 1 => 0.3   | 2, 2 => 0.7
  | .tritanopia => fun i j =>
      match i, j with
      | 0, 0 => 0.95  | 0, 1 => 0.05  | 0, 2 => 0.0
      | 1, 0 => 0.0   | 1, 1 => 0.433 | 1, 2 => 0.567
      | 2, 0 => 0.0   | 2, 1 => 0.475 | 2, 2 => 0.525

/-- The simulation as worded by the spec: apply the mode's fixed 3×3
matrix to the channels normalized to [0,1], clamp each resulting channel
to [0,1], and rescale to [0,255]. -/
noncomputable def spec_simulate (m : Mode) (chan : Fin 3 → ℝ) : Fin 3 → ℝ :=
  fun i => 255 * min 1 (max 0 (∑ j, spec_matrix m i j * (chan j / 255)))

/-- The spec's simple contrast-score variant
`max(0, 100 − min(60, issue_count × 3))`. -/
def spec_simple_contrast (issue_count : ℕ) : ℤ :=
  max 0 (100 - min 60 ((issue_count : ℤ) * 3))

/-- The spec's weighted contrast-score variant
`max(0, 100 − (issue_count/total_pairs)×100×0.6)`. -/
def spec_weighted_contrast (issue_count total_pairs : ℕ) : ℚ :=
  max 0 (100 - ((issue_count : ℚ) / (total_pairs : ℚ)) * 100 * 0.6)

/-! ### Inputs and predicates used by the claim theorems -/

/-- The spec scenario palette entries. -/
def gray7 : List Char := ['#', '7', '7', '7', '7', '7', '7']

def gray8 : List Char := ['#', '8', '8', '8', '8', '8', '8']

/-- A canonical color in the sense of the spec: `#` followed by exactly
six hex digits. -/
def validHex6 (s : List Char) : Bool :=
  match s with
  | c :: rest => (c = '#') && decide (rest.length = 6) && rest.all isHexDigit
  | [] => false

/-- All three channels parsed by `hex_to_rgb` are nonnegative. -/
def channelsNonneg (s : List Char) : Bool :=
  decide (0 ≤ (hex_to_rgb s).1) && decide (0 ≤ (hex_to_rgb s).2.1)
    && decide (0 ≤ (hex_to_rgb s).2.2)

/-- The number of generated pairs classified as issues for a palette at a
threshold (the classification loop of src/app.py lines 691-717). -/
noncomputable def issue_count (colors : List (List Char)) (threshold : ℝ) : ℕ :=
  ((generate_pairs (cleaned_colors colors)).filter
    (fun p => is_issue p.1 p.2 threshold)).length

/-- A palette of 21 distinct six-digit hex colors. -/
def palette21 : List (List Char) :=
  (List.range 21).map
    (fun n => ['#', '0', '0', '0', '0', hexDigitChar (n / 16), hexDigitChar (n % 16)])

/-- The input of the C10 counterexample: Python `int('-f', 16) = -15`,
so every channel parses to -15. -/
def minusF : List Char := ['-', 'f', '-', 'f', '-', 'f']

def hexWhite : List Char := ['#', 'F', 'F', 'F', 'F', 'F', 'F']

def hexBlack : List Char := ['#', '0', '0', '0', '0', '0', '0']

/-- The rgb() input of the C3 counterexample (channel 300 out of range). -/
def rgb300 : List Char := ['r', 'g', 'b', '(', '3', '0', '0', ',', '0', ',', '0', ')']

/-- What `normalize_hex` actually returns on `rgb300`:
`'{:02X}'.format(300) = '12C'`, seven hex digits in total. -/
def hex12C : List Char := ['#', '1', '2', 'C', '0', '0', '0', '0']

/-- The channels of an rgb triple as a `Fin 3`-indexed vector (for the
spec-side matrix-vector product). -/
def chanOf (rgb : ℝ × ℝ × ℝ) : Fin 3 → ℝ :=
  fun i => match i with
  | 0 => rgb.1
  | 1 => rgb.2.1
  | 2 => rgb.2.2

/-- A concrete issue record used by witnesses. -/
noncomputable def wIssue : Issue :=
  { fg := [], bg := [], ratio := 1, cb_prot := 1, cb_deut := 1, cb_trit := 1,
    min_ratio := 1, cb_specific := true }

/-! ### Helper lemmas: rounding -/

lemma round2_le_add (x : ℝ) : round2 x ≤ x + 1 / 200 := by
  unfold round2
  have h := Int.floor_le (x * 100 + 1 / 2)
  rw [div_le_iff₀ (by norm_num : (0:ℝ) < 100)]
  linarith

lemma one_le_round2 {x : ℝ} (h : 1 ≤ x) : 1 ≤ round2 x := by
  unfold round2
  rw [le_div_iff₀ (by norm_num : (0:ℝ) < 100)]
  have h100 : (100 : ℤ) ≤ ⌊x * 100 + 1 / 2⌋ := Int.le_floor.2 (by push_cast; linarith)
  calc (1:ℝ) * 100 = ((100 : ℤ) : ℝ) := by norm_num
    _ ≤ (⌊x * 100 + 1 / 2⌋ : ℝ) := by exact_mod_cast h100

lemma round2_le_21 {x : ℝ} (h : x ≤ 21) : round2 x ≤ 21 := by
  unfold round2
  rw [div_le_iff₀ (by norm_num : (0:ℝ) < 100)]
  have h1 : (⌊x * 100 + 1 / 2⌋ : ℝ) ≤ x * 100 + 1 / 2 := Int.floor_le _
  have h2 : ⌊x * 100 + 1 / 2⌋ < 2101 := by
    have : (⌊x * 100 + 1 / 2⌋ : ℝ) < 2101 := by linarith
    exact_mod_cast this
  have h3 : (⌊x * 100 + 1 / 2⌋ : ℝ) ≤ 2100 := by exact_mod_cast Int.lt_add_one_iff.1 h2
  linarith

lemma round2_one : round2 1 = 1 := by
  unfold round2
  rw [show (1:ℝ) * 100 + 1 / 2 = 100.5 by norm_num]
  rw [show ⌊(100.5:ℝ)⌋ = 100 by
    rw [Int.floor_eq_iff]
    constructor <;> norm_num]
  norm_num

/-! ### Helper lemmas: parsed channel bounds -/

lemma hexVal_bounds {c : Char} (h : isHexDigit c = true) :
    0 ≤ hexVal c ∧ hexVal c ≤ 15 := by
  unfold isHexDigit at h
  unfold hexVal
  simp only [Bool.or_eq_true, Bool.and_eq_true, decide_eq_true_eq] at h
  split_ifs with h1 h2
  · simp only [Bool.and_eq_true, decide_eq_true_eq] at h1; omega
  · simp only [Bool.and_eq_true, decide_eq_true_eq] at h2; omega
  · simp only [Bool.and_eq_true, decide_eq_true_eq, not_and, not_le] at h1 h2; omega

lemma int16_bounds {l : List Char} {x : ℤ} (h : int16 l = some x) :
    -15 ≤ x ∧ x ≤ 255 := by
  rcases l with _ | ⟨c1, _ | ⟨c2, _ | ⟨c3, t⟩⟩⟩
  · simp [int16] at h
  · simp only [int16] at h
    split_ifs at h with h1
    · obtain ⟨rfl⟩ : hexVal c1 = x := by injection h
      have := hexVal_bounds h1; omega
  · simp only [int16] at h
    by_cases h1 : (isHexDigit c1 && isHexDigit c2) = true
    · rw [if_pos h1] at h
      rw [Bool.and_eq_true] at h1
      obtain ⟨rfl⟩ : 16 * hexVal c1 + hexVal c2 = x := by injection h
      have b1 := hexVal_bounds h1.1
      have b2 := hexVal_bounds h1.2
      omega
    · rw [if_neg h1] at h
      by_cases h2 : (isSign c1 && isHexDigit c2) = true
      · rw [if_pos h2] at h
        rw [Bool.and_eq_true] at h2
        have b2 := hexVal_bounds h2.2
        obtain ⟨rfl⟩ : (if c1 = '-' then -hexVal c2 else hexVal c2) = x := by injection h
        split_ifs <;> omega
      · rw [if_neg h2] at h
        by_cases h3 : (isPySpace c1 && isHexDigit c2) = true
        · rw [if_pos h3] at h
          rw [Bool.and_eq_true] at h3
          obtain ⟨rfl⟩ : hexVal c2 = x := by injection h
          have := hexVal_bounds h3.2
          omega
        · rw [if_neg h3] at h
          by_cases h4 : (isHexDigit c1 && isPySpace c2) = true
          · rw [if_pos h4] at h
            rw [Bool.and_eq_true] at h4
            obtain ⟨rfl⟩ : hexVal c1 = x := by injection h
            have := hexVal_bounds h4.1
            omega
          · rw [if_neg h4] at h
            exact absurd h (by simp)
  · simp [int16] at h

/-- `hex_to_rgb` always returns channels in [-15, 255]: two-hex-digit
slices give [0, 255], a signed single digit gives [-15, 15], and the
failure value is (0,0,0). -/
lemma hex_to_rgb_bounds (s : List Char) :
    (-15 ≤ (hex_to_rgb s).1 ∧ (hex_to_rgb s).1 ≤ 255) ∧
    (-15 ≤ (hex_to_rgb s).2.1 ∧ (hex_to_rgb s).2.1 ≤ 255) ∧
    (-15 ≤ (hex_to_rgb s).2.2 ∧ (hex_to_rgb s).2.2 ≤ 255) := by
  unfold hex_to_rgb
  set h0 := s.dropWhile (fun c => decide (c = '#')) with hh0
  set hh := if h0.length = 3 then h0.flatMap (fun c => [c, c]) else h0 with hhh
  rcases e1 : int16 (hh.take 2) with _ | v1 <;>
    rcases e2 : int16 ((hh.drop 2).take 2) with _ | v2 <;>
      rcases e3 : int16 ((hh.drop 4).take 2) with _ | v3 <;>
        simp only [e1, e2, e3] <;> norm_num
  exact ⟨int16_bounds e1, int16_bounds e2, int16_bounds e3⟩

/-! ### Helper lemmas: luminance and ratio bounds -/

lemma srgb_to_linear_bounds {c : ℝ} (h0 : 0 ≤ c) (h255 : c ≤ 255) :
    0 ≤ srgb_to_linear_channel c ∧ srgb_to_linear_channel c ≤ 1 := by
  unfold srgb_to_linear_channel
  by_cases h : c / 255 ≤ 0.03928
  · rw [if_pos h]
    constructor
    · positivity
    · rw [div_le_one (by norm_num : (0:ℝ) < 12.92)]
      linarith
  · rw [if_neg h]
    push_neg at h
    have hb0 : 0 ≤ (c / 255 + 0.055) / 1.055 := by positivity
    have hc1 : c / 255 ≤ 1 := by
      rw [div_le_one (by norm_num : (0:ℝ) < 255)]; exact h255
    have hb1 : (c / 255 + 0.055) / 1.055 ≤ 1 := by
      rw [div_le_one (by norm_num : (0:ℝ) < 1.055)]; linarith
    exact ⟨Real.rpow_nonneg hb0 _, Real.rpow_le_one hb0 hb1 (by norm_num)⟩

lemma relative_luminance_bounds {r g b : ℝ}
    (hr : 0 ≤ r ∧ r ≤ 255) (hg : 0 ≤ g ∧ g ≤ 255) (hb : 0 ≤ b ∧ b ≤ 255) :
    0 ≤ relative_luminance (r, g, b) ∧ relative_luminance (r, g, b) ≤ 1 := by
  unfold relative_luminance
  obtain ⟨r1, r2⟩ := srgb_to_linear_bounds hr.1 hr.2
  obtain ⟨g1, g2⟩ := srgb_to_linear_bounds hg.1 hg.2
  obtain ⟨b1, b2⟩ := srgb_to_linear_bounds hb.1 hb.2
  constructor <;> [nlinarith; nlinarith]

lemma ratio_range {L1 L2 : ℝ} (h1 : 0 ≤ L1) (h1' : L1 ≤ 1) (h2 : 0 ≤ L2) (h2' : L2 ≤ 1) :
    1 ≤ (max L1 L2 + 0.05) / (min L1 L2 + 0.05) ∧
      (max L1 L2 + 0.05) / (min L1 L2 + 0.05) ≤ 21 := by
  have hmin : 0 ≤ min L1 L2 := le_min h1 h2
  have hmax1 : max L1 L2 ≤ 1 := max_le h1' h2'
  have hmm : min L1 L2 ≤ max L1 L2 := min_le_max
  constructor
  · rw [le_div_iff₀ (by linarith)]
    linarith
  · rw [div_le_iff₀ (by linarith)]
    linarith

/-- Combined range fact for `contrast_ratio` when both parsed channel
triples are nonnegative (they are always ≤ 255 by `hex_to_rgb_bounds`). -/
lemma contrast_ratio_range {s1 s2 : List Char}
    (h1 : 0 ≤ (hex_to_rgb s1).1 ∧ 0 ≤ (hex_to_rgb s1).2.1 ∧ 0 ≤ (hex_to_rgb s1).2.2)
    (h2 : 0 ≤ (hex_to_rgb s2).1 ∧ 0 ≤ (hex_to_rgb s2).2.1 ∧ 0 ≤ (hex_to_rgb s2).2.2) :
    1 ≤ contrast_ratio s1 s2 ∧ contrast_ratio s1 s2 ≤ 21 := by
  unfold contrast_ratio
  obtain ⟨b11, b12, b13⟩ := hex_to_rgb_bounds s1
  obtain ⟨b21, b22, b23⟩ := hex_to_rgb_bounds s2
  have hL1 := relative_luminance_bounds (r := ((hex_to_rgb s1).1 : ℝ))
    (g := ((hex_to_rgb s1).2.1 : ℝ)) (b := ((hex_to_rgb s1).2.2 : ℝ))
    ⟨by exact_mod_cast h1.1, by exact_mod_cast b11.2⟩
    ⟨by exact_mod_cast h1.2.1, by exact_mod_cast b12.2⟩
    ⟨by exact_mod_cast h1.2.2, by exact_mod_cast b13.2⟩
  have hL2 := relative_luminance_bounds (r := ((hex_to_rgb s2).1 : ℝ))
    (g := ((hex_to_rgb s2).2.1 : ℝ)) (b := ((hex_to_rgb s2).2.2 : ℝ))
    ⟨by exact_mod_cast h2.1, by exact_mod_cast b21.2⟩
    ⟨by exact_mod_cast h2.2.1, by exact_mod_cast b22.2⟩
    ⟨by exact_mod_cast h2.2.2, by exact_mod_cast b23.2⟩
  have hr := ratio_range hL1.1 hL1.2 hL2.1 hL2.2
  exact ⟨one_le_round2 hr.1, round2_le_21 hr.2⟩

/-! ### Helper lemmas: symmetry -/

lemma contrast_ratio_comm (a b : List Char) : contrast_ratio a b = contrast_ratio b a := by
  simp only [contrast_ratio]
  rw [max_comm, min_comm]

lemma colorblind_contrast_ratio_comm (a b : List Char) (m : Mode) :
    colorblind_contrast_ratio a b m = colorblind_contrast_ratio b a m := by
  simp only [colorblind_contrast_ratio]
  rw [max_comm, min_comm]

/-! ### The spec's gray-palette scenario: `["#777777", "#888888"]` at
threshold 4.5 -/

lemma rgb_gray7 : rgbToReal (hex_to_rgb gray7) = ((119:ℝ), (119:ℝ), (119:ℝ)) := by
  rw [show hex_to_rgb gray7 = (119, 119, 119) from by decide]
  simp [rgbToReal]

lemma rgb_gray8 : rgbToReal (hex_to_rgb gray8) = ((136:ℝ), (136:ℝ), (136:ℝ)) := by
  rw [show hex_to_rgb gray8 = (136, 136, 136) from by decide]
  simp [rgbToReal]

lemma lum_gray7 : relative_luminance (rgbToReal (hex_to_rgb gray7)) = (313/633 : ℝ) ^ (2.4:ℝ) := by
  rw [rgb_gray7]
  simp only [relative_luminance, srgb_to_linear_channel]
  rw [if_neg (by norm_num : ¬((119:ℝ)/255 ≤ 0.03928))]
  rw [show ((119:ℝ)/255 + 0.055)/1.055 = 313/633 by norm_num]
  ring

lemma lum_gray8 : relative_luminance (rgbToReal (hex_to_rgb gray8)) = (353/633 : ℝ) ^ (2.4:ℝ) := by
  rw [rgb_gray8]
  simp only [relative_luminance, srgb_to_linear_channel]
  rw [if_neg (by norm_num : ¬((136:ℝ)/255 ≤ 0.03928))]
  rw [show ((136:ℝ)/255 + 0.055)/1.055 = 353/633 by norm_num]
  ring

lemma l7_le_l8 : (313/633 : ℝ) ^ (2.4:ℝ) ≤ (353/633 : ℝ) ^ (2.4:ℝ) :=
  Real.rpow_le_rpow (by norm_num) (by norm_num) (by norm_num)

lemma l7_lb : ((313/633 : ℝ)) ^ (3:ℕ) ≤ (313/633 : ℝ) ^ (2.4:ℝ) := by
  have h := Real.rpow_le_rpow_of_exponent_ge (x := (313/633:ℝ)) (by norm_num) (by norm_num)
    (show (2.4:ℝ) ≤ 3 by norm_num)
  rwa [show ((3:ℝ)) = ((3:ℕ):ℝ) by norm_num, Real.rpow_natCast] at h

lemma l8_ub : (353/633 : ℝ) ^ (2.4:ℝ) ≤ ((353/633 : ℝ)) ^ (2:ℕ) := by
  have h := Real.rpow_le_rpow_of_exponent_ge (x := (353/633:ℝ)) (by norm_num) (by norm_num)
    (show (2:ℝ) ≤ 2.4 by norm_num)
  rwa [show ((2:ℝ)) = ((2:ℕ):ℝ) by norm_num, Real.rpow_natCast] at h

lemma gray_raw_le :
    ((353/633 : ℝ) ^ (2.4:ℝ) + 0.05) / ((313/633 : ℝ) ^ (2.4:ℝ) + 0.05) ≤ 2.2 := by
  have h7 := l7_lb
  have h8 := l8_ub
  have hd : (0:ℝ) < (313/633 : ℝ) ^ (3:ℕ) + 0.05 := by positivity
  have h := div_le_div₀ (by positivity)
    (add_le_add_right h8 0.05) hd (add_le_add_right h7 0.05)
  calc ((353/633 : ℝ) ^ (2.4:ℝ) + 0.05) / ((313/633 : ℝ) ^ (2.4:ℝ) + 0.05)
      ≤ (((353/633 : ℝ)) ^ (2:ℕ) + 0.05) / (((313/633 : ℝ)) ^ (3:ℕ) + 0.05) := h
    _ ≤ 2.2 := by norm_num

/-- The normal-vision ratio of the two grays is far below the threshold
4.5 (numerically it is 1.26). -/
lemma contrast_gray78_lt : contrast_ratio gray7 gray8 < 4.5 := by
  simp only [contrast_ratio]
  rw [lum_gray7, lum_gray8]
  rw [max_eq_right l7_le_l8, min_eq_left l7_le_l8]
  have h1 := round2_le_add
    (((353/633 : ℝ) ^ (2.4:ℝ) + 0.05) / ((313/633 : ℝ) ^ (2.4:ℝ) + 0.05))
  have h2 := gray_raw_le
  linarith

/-- Every deficiency matrix has rows summing to 1, so grays are fixed
points of the simulation. -/
lemma gray_transform (m : Mode) {c : ℝ} (h0 : 0 ≤ c) (h1 : c ≤ 255) :
    colorblind_transform (c, c, c) (MATRICES m) = (c, c, c) := by
  have hd0 : 0 ≤ c / 255 := by positivity
  have hd1 : c / 255 ≤ 1 := by
    rw [div_le_one (by norm_num : (0:ℝ) < 255)]; exact h1
  have hc : ∀ a b d : ℝ, a + b + d = 1 →
      min 1 (max 0 (c/255*a + c/255*b + c/255*d)) * 255 = c := by
    intro a b d habd
    rw [show c/255*a + c/255*b + c/255*d = c/255*(a+b+d) by ring, habd, mul_one]
    rw [max_eq_right hd0, min_eq_right hd1]
    field_simp
  cases m <;> simp only [colorblind_transform, MATRICES] <;>
    refine Prod.ext ?_ (Prod.ext ?_ ?_) <;>
      exact hc _ _ _ (by norm_num)

lemma cb_gray78_eq (m : Mode) :
    colorblind_contrast_ratio gray7 gray8 m = contrast_ratio gray7 gray8 := by
  simp only [colorblind_contrast_ratio, contrast_ratio]
  rw [rgb_gray7, rgb_gray8]
  rw [gray_transform m (by norm_num) (by norm_num),
    gray_transform m (by norm_num) (by norm_num)]

lemma cb_gray87_eq (m : Mode) :
    colorblind_contrast_ratio gray8 gray7 m = contrast_ratio gray8 gray7 := by
  simp only [colorblind_contrast_ratio, contrast_ratio]
  rw [rgb_gray7, rgb_gray8]
  rw [gray_transform m (by norm_num) (by norm_num),
    gray_transform m (by norm_num) (by norm_num)]

lemma contrast_gray87_lt : contrast_ratio gray8 gray7 < 4.5 := by
  rw [contrast_ratio_comm]; exact contrast_gray78_lt

lemma is_issue_gray78 : is_issue gray7 gray8 4.5 = true := by
  unfold is_issue
  rw [decide_eq_true contrast_gray78_lt]
  simp

lemma is_issue_gray87 : is_issue gray8 gray7 4.5 = true := by
  unfold is_issue
  rw [decide_eq_true contrast_gray87_lt]
  simp

lemma is_cb_issue_gray78 : is_colorblind_issue gray7 gray8 4.5 = true := by
  unfold is_colorblind_issue
  refine List.any_eq_true.2 ⟨.protanopia, by simp [modes], decide_eq_true ?_⟩
  rw [cb_gray78_eq]
  exact contrast_gray78_lt

lemma is_cb_issue_gray87 : is_colorblind_issue gray8 gray7 4.5 = true := by
  unfold is_colorblind_issue
  refine List.any_eq_true.2 ⟨.protanopia, by simp [modes], decide_eq_true ?_⟩
  rw [cb_gray87_eq]
  exact contrast_gray87_lt

lemma mkIssue_gray78_min :
    (mkIssue gray7 gray8 4.5).min_ratio = contrast_ratio gray7 gray8 := by
  simp only [mkIssue, cb_gray78_eq, min_self]

lemma mkIssue_gray87_min :
    (mkIssue gray8 gray7 4.5).min_ratio = contrast_ratio gray7 gray8 := by
  simp only [mkIssue, cb_gray87_eq, min_self, contrast_ratio_comm gray8 gray7]

/-! ### Helper lemmas: the stable insertion sort of `rank_issues` -/

lemma insertIssue_perm (x : Issue) (l : List Issue) : List.Perm (insertIssue x l) (x :: l) := by
  induction l with
  | nil => simp [insertIssue]
  | cons y ys ih =>
    unfold insertIssue
    by_cases h : x.min_ratio ≤ y.min_ratio
    · rw [if_pos h]
    · rw [if_neg h]
      exact (ih.cons y).trans (List.Perm.swap x y ys)

lemma sortIssues_perm (l : List Issue) : List.Perm (sortIssues l) l := by
  induction l with
  | nil => simp [sortIssues]
  | cons x xs ih =>
    show List.Perm (insertIssue x (sortIssues xs)) (x :: xs)
    exact (insertIssue_perm x (sortIssues xs)).trans (ih.cons x)

lemma insertIssue_sorted (x : Issue) {l : List Issue}
    (hl : l.Pairwise (fun a b => a.min_ratio ≤ b.min_ratio)) :
    (insertIssue x l).Pairwise (fun a b => a.min_ratio ≤ b.min_ratio) := by
  induction l with
  | nil => simp [insertIssue]
  | cons y ys ih =>
    rw [List.pairwise_cons] at hl
    unfold insertIssue
    by_cases h : x.min_ratio ≤ y.min_ratio
    · rw [if_pos h]
      refine List.Pairwise.cons ?_ (List.Pairwise.cons hl.1 hl.2)
      intro z hz
      rcases List.mem_cons.1 hz with rfl | hz
      · exact h
      · exact le_trans h (hl.1 z hz)
    · rw [if_neg h]
      push_neg at h
      refine List.Pairwise.cons ?_ (ih hl.2)
      intro z hz
      rcases List.mem_cons.1 ((insertIssue_perm x ys).mem_iff.1 hz) with rfl | hz
      · exact le_of_lt h
      · exact hl.1 z hz

lemma sortIssues_sorted (l : List Issue) :
    (sortIssues l).Pairwise (fun a b => a.min_ratio ≤ b.min_ratio) := by
  induction l with
  | nil => simp [sortIssues]
  | cons x xs ih => exact insertIssue_sorted x ih

lemma insertIssue_filter_eq (x : Issue) (l : List Issue) {r : ℝ} (hx : x.min_ratio = r) :
    (insertIssue x l).filter (fun i => decide (i.min_ratio = r))
      = x :: l.filter (fun i => decide (i.min_ratio = r)) := by
  induction l with
  | nil => simp [insertIssue, hx]
  | cons y ys ih =>
    unfold insertIssue
    by_cases h : x.min_ratio ≤ y.min_ratio
    · rw [if_pos h]
      simp only [List.filter_cons, decide_eq_true_eq]
      rw [if_pos hx]
    · rw [if_neg h]
      push_neg at h
      have hy : ¬(y.min_ratio = r) := by
        intro hyr
        rw [hyr, ← hx] at h
        exact absurd h (lt_irrefl _)
      simp only [List.filter_cons, decide_eq_true_eq]
      rw [if_neg hy, if_neg hy, ih]

lemma insertIssue_filter_ne (x : Issue) (l : List Issue) {r : ℝ} (hx : ¬(x.min_ratio = r)) :
    (insertIssue x l).filter (fun i => decide (i.min_ratio = r))
      = l.filter (fun i => decide (i.min_ratio = r)) := by
  induction l with
  | nil => simp [insertIssue, hx]
  | cons y ys ih =>
    unfold insertIssue
    by_cases h : x.min_ratio ≤ y.min_ratio
    · rw [if_pos h]
      simp only [List.filter_cons, decide_eq_true_eq]
      rw [if_neg hx]
    · rw [if_neg h]
      simp only [List.filter_cons, decide_eq_true_eq]
      by_cases hy : y.min_ratio = r
      · rw [if_pos hy, if_pos hy, ih]
      · rw [if_neg hy, if_neg hy, ih]

/-- Stability of the sort: elements sharing any key value keep their
original relative order. -/
lemma sortIssues_filter (l : List Issue) (r : ℝ) :
    (sortIssues l).filter (fun i => decide (i.min_ratio = r))
      = l.filter (fun i => decide (i.min_ratio = r)) := by
  induction l with
  | nil => simp [sortIssues]
  | cons x xs ih =>
    show (insertIssue x (sortIssues xs)).filter _ = _
    by_cases hx : x.min_ratio = r
    · rw [insertIssue_filter_eq x _ hx, ih]
      simp only [List.filter_cons, decide_eq_true_eq]
      rw [if_pos hx]
    · rw [insertIssue_filter_ne x _ hx, ih]
      simp only [List.filter_cons, decide_eq_true_eq]
      rw [if_neg hx]

/-! ### Helper lemmas: counting -/

lemma length_filter_mono {α : Type} (p q : α → Bool) (h : ∀ a, p a = true → q a = true) :
    ∀ l : List α, (l.filter p).length ≤ (l.filter q).length := by
  intro l
  induction l with
  | nil => simp
  | cons a l ih =>
    rw [List.filter_cons, List.filter_cons]
    by_cases hp : p a = true
    · rw [if_pos hp, if_pos (h a hp)]
      simpa using ih
    · rw [if_neg hp]
      split_ifs with hq
      · exact le_trans ih (by simp)
      · exact ih

lemma generate_pairs_length (l : List (List Char)) :
    (generate_pairs l).length = l.length * (l.length - 1) := by
  induction l with
  | nil => rfl
  | cons x xs ih =>
    have hstep : generate_pairs (x :: xs)
        = (xs.map (fun y => (x, y))).flatMap (fun p => [(p.1, p.2), (p.2, p.1)])
            ++ generate_pairs xs := by
      show (combinations2 (x :: xs)).flatMap _ = _
      rw [show combinations2 (x :: xs)
          = xs.map (fun y => (x, y)) ++ combinations2 xs from rfl,
        List.flatMap_append]
      rfl
    rw [hstep, List.length_append, ih]
    have h1 : ∀ ys : List (List Char), ((ys.map (fun y => (x, y))).flatMap
        (fun p => [(p.1, p.2), (p.2, p.1)])).length = 2 * ys.length := by
      intro ys
      induction ys with
      | nil => rfl
      | cons z zs ihz =>
        simp only [List.map_cons, List.flatMap_cons, List.length_append,
          List.length_cons, List.length_nil] at ihz ⊢
        omega
    rw [h1 xs]
    rcases xs with _ | ⟨y, ys⟩
    · rfl
    · simp only [List.length_cons, Nat.add_sub_cancel]
      ring

/-! ### Helper lemmas: valid colors and the C10 inputs -/

lemma hexDigit_ne_hash {c : Char} (h : isHexDigit c = true) : ¬(c = '#') := by
  rintro rfl
  exact absurd h (by decide)

lemma hex_to_rgb_valid {a1 a2 a3 a4 a5 a6 : Char}
    (h1 : isHexDigit a1 = true) (h2 : isHexDigit a2 = true)
    (h3 : isHexDigit a3 = true) (h4 : isHexDigit a4 = true)
    (h5 : isHexDigit a5 = true) (h6 : isHexDigit a6 = true) :
    hex_to_rgb ['#', a1, a2, a3, a4, a5, a6]
      = (16 * hexVal a1 + hexVal a2, 16 * hexVal a3 + hexVal a4,
          16 * hexVal a5 + hexVal a6) := by
  have hne : decide (a1 = '#') = false := decide_eq_false (hexDigit_ne_hash h1)
  simp [hex_to_rgb, hne, int16, h1, h2, h3, h4, h5, h6]

lemma validHex6_channels {s : List Char} (h : validHex6 s = true) :
    (0 ≤ (hex_to_rgb s).1 ∧ (hex_to_rgb s).1 ≤ 255) ∧
    (0 ≤ (hex_to_rgb s).2.1 ∧ (hex_to_rgb s).2.1 ≤ 255) ∧
    (0 ≤ (hex_to_rgb s).2.2 ∧ (hex_to_rgb s).2.2 ≤ 255) := by
  rcases s with _ | ⟨a0, _ | ⟨a1, _ | ⟨a2, _ | ⟨a3, _ | ⟨a4, _ | ⟨a5, _ | ⟨a6, rest⟩⟩⟩⟩⟩⟩⟩ <;>
      simp [validHex6] at h
  obtain ⟨⟨rfl, hlen⟩, h1, h2, h3, h4, h5, h6⟩ := h
  subst hlen
  obtain ⟨h6, -⟩ := h6
  rw [hex_to_rgb_valid h1 h2 h3 h4 h5 h6]
  have b1 := hexVal_bounds h1
  have b2 := hexVal_bounds h2
  have b3 := hexVal_bounds h3
  have b4 := hexVal_bounds h4
  have b5 := hexVal_bounds h5
  have b6 := hexVal_bounds h6
  refine ⟨⟨?_, ?_⟩, ⟨?_, ?_⟩, ⟨?_, ?_⟩⟩ <;> simp <;> omega

lemma contrast_ratio_self {s : List Char}
    (h : 0 ≤ (hex_to_rgb s).1 ∧ 0 ≤ (hex_to_rgb s).2.1 ∧ 0 ≤ (hex_to_rgb s).2.2) :
    contrast_ratio s s = 1 := by
  simp only [contrast_ratio, max_self, min_self]
  obtain ⟨b1, b2, b3⟩ := hex_to_rgb_bounds s
  have hL := relative_luminance_bounds (r := ((hex_to_rgb s).1 : ℝ))
    (g := ((hex_to_rgb s).2.1 : ℝ)) (b := ((hex_to_rgb s).2.2 : ℝ))
    ⟨by exact_mod_cast h.1, by exact_mod_cast b1.2⟩
    ⟨by exact_mod_cast h.2.1, by exact_mod_cast b2.2⟩
    ⟨by exact_mod_cast h.2.2, by exact_mod_cast b3.2⟩
  rw [div_self (by have := hL.1; simp only [rgbToReal]; linarith)]
  exact round2_one

lemma lum_white : relative_luminance (rgbToReal (hex_to_rgb hexWhite)) = 1 := by
  rw [show hex_to_rgb hexWhite = (255, 255, 255) from by decide]
  simp only [relative_luminance, rgbToReal, srgb_to_linear_channel]
  push_cast
  rw [if_neg (by norm_num : ¬((255:ℝ)/255 ≤ 0.03928))]
  rw [show ((255:ℝ)/255 + 0.055)/1.055 = 1 by norm_num, Real.one_rpow]
  norm_num

lemma lum_minusF : relative_luminance (rgbToReal (hex_to_rgb minusF)) = -25/5491 := by
  rw [show hex_to_rgb minusF = (-15, -15, -15) from by decide]
  simp only [relative_luminance, rgbToReal, srgb_to_linear_channel]
  push_cast
  rw [if_pos (by norm_num : ((-15:ℝ)/255 ≤ 0.03928))]
  norm_num

/-- The exact value the code returns on the signed-digit input: 23.1,
outside [1, 21]. -/
lemma cr_minusF : contrast_ratio minusF hexWhite = 23.1 := by
  simp only [contrast_ratio]
  rw [lum_minusF, lum_white]
  rw [max_eq_right (by norm_num : (-25/5491:ℝ) ≤ 1),
    min_eq_left (by norm_num : (-25/5491:ℝ) ≤ 1)]
  unfold round2
  rw [show ((1:ℝ) + 0.05) / (-25/5491 + 0.05) * 100 + 1/2 = 23067191/9982 by norm_num]
  rw [show ⌊(23067191/9982 : ℝ)⌋ = 2310 by
    rw [Int.floor_eq_iff]
    constructor <;> norm_num]
  norm_num

/-! ### Claim theorems -/

/-- C1 (counterexample): for the spec's own scenario palette
["#777777", "#888888"] at threshold 4.5, the pair is flagged as an issue,
the Normal-vision ratio is below the threshold, and yet the recorded
`is_colorblind_issue` flag is TRUE — contradicting both the claimed
characterisation (flag true requires Normal ratio ≥ threshold) and the
claimed scenario outcome (flag false for both directions). -/
theorem C1_counterexample :
    is_issue gray7 gray8 4.5 = true ∧
    is_colorblind_issue gray7 gray8 4.5 = true ∧
    contrast_ratio gray7 gray8 < 4.5 :=
  ⟨is_issue_gray78, is_cb_issue_gray78, contrast_gray78_lt⟩

/-- C1 (amended): the recorded `colorblind_specific` flag is true iff at
least one deficiency-mode ratio is below the threshold, regardless of the
Normal-vision ratio; for the palette ["#777777", "#888888"] at threshold
4.5 both direction pairs are flagged as issues and `colorblind_specific`
is TRUE for both. -/
theorem C1_flag_characterisation :
    (∀ (fg bg : List Char) (t : ℝ),
      is_colorblind_issue fg bg t = true
        ↔ ∃ m ∈ modes, colorblind_contrast_ratio fg bg m < t) ∧
    is_issue gray7 gray8 4.5 = true ∧ is_issue gray8 gray7 4.5 = true ∧
    (mkIssue gray7 gray8 4.5).cb_specific = true ∧
    (mkIssue gray8 gray7 4.5).cb_specific = true := by
  refine ⟨?_, is_issue_gray78, is_issue_gray87, ?_, ?_⟩
  · intro fg bg t
    unfold is_colorblind_issue
    rw [List.any_eq_true]
    constructor
    · rintro ⟨m, hm, hdec⟩
      exact ⟨m, hm, of_decide_eq_true hdec⟩
    · rintro ⟨m, hm, hlt⟩
      exact ⟨m, hm, decide_eq_true hlt⟩
  · simpa only [mkIssue] using is_cb_issue_gray78
  · simpa only [mkIssue] using is_cb_issue_gray87

/-- C2 (counterexample): on the palette ["#777777", "#888888"] the ranked
issue list contains BOTH ordered directions of the same unordered color
pair — no deduplication by unordered pair happens. -/
theorem C2_counterexample :
    (rank_issues (analyze_issues [gray7, gray8] 4.5)).map (fun i => (i.fg, i.bg))
      = [(gray7, gray8), (gray8, gray7)] := by
  have hpairs : generate_pairs (cleaned_colors [gray7, gray8])
      = [(gray7, gray8), (gray8, gray7)] := by decide
  have hA : analyze_issues [gray7, gray8] 4.5
      = [mkIssue gray7 gray8 4.5, mkIssue gray8 gray7 4.5] := by
    unfold analyze_issues
    rw [hpairs]
    simp [is_issue_gray78, is_issue_gray87]
  rw [hA]
  unfold rank_issues sortIssues
  simp only [List.foldr]
  rw [show insertIssue (mkIssue gray8 gray7 4.5) [] = [mkIssue gray8 gray7 4.5] from rfl]
  rw [show insertIssue (mkIssue gray7 gray8 4.5) [mkIssue gray8 gray7 4.5]
      = [mkIssue gray7 gray8 4.5, mkIssue gray8 gray7 4.5] from by
    unfold insertIssue
    rw [if_pos (by rw [mkIssue_gray78_min, mkIssue_gray87_min])]]
  simp [mkIssue]

/-- C2 (amended): `rank_issues` stably sorts ascending by `min_ratio`
(ties keep generation order) and truncates to 15, but performs NO
deduplication by unordered pair: when at most 15 issues exist, the ranked
list is a permutation of the full input — both (A,B) and (B,A) survive. -/
theorem C2_rank_issues (l : List Issue) (h : l.length ≤ 15) :
    List.Pairwise (fun a b => a.min_ratio ≤ b.min_ratio) (rank_issues l) ∧
    List.Perm (rank_issues l) l ∧
    ∀ r : ℝ, (rank_issues l).filter (fun i => decide (i.min_ratio = r))
      = l.filter (fun i => decide (i.min_ratio = r)) := by
  have hlen : (sortIssues l).length = l.length := (sortIssues_perm l).length_eq
  have htake : rank_issues l = sortIssues l := by
    unfold rank_issues
    exact List.take_of_length_le (by rw [hlen]; exact h)
  refine ⟨?_, ?_, ?_⟩
  · rw [htake]; exact sortIssues_sorted l
  · rw [htake]; exact sortIssues_perm l
  · intro r; rw [htake]; exact sortIssues_filter l r

/-- Witness for C2 (amended) at the singleton issue list. -/
theorem C2_rank_issues_witness :
    [wIssue].length ≤ 15 ∧
    (List.Pairwise (fun a b => a.min_ratio ≤ b.min_ratio) (rank_issues [wIssue]) ∧
      List.Perm (rank_issues [wIssue]) [wIssue] ∧
      ∀ r : ℝ, (rank_issues [wIssue]).filter (fun i => decide (i.min_ratio = r))
        = [wIssue].filter (fun i => decide (i.min_ratio = r))) :=
  ⟨by simp, C2_rank_issues [wIssue] (by simp)⟩

/-- C3 (counterexample): `normalize_hex` does NOT reject out-of-range
channels: on `rgb(300,0,0)` it returns the seven-digit string `#12C0000`
instead of nothing. -/
theorem C3_counterexample :
    normalize_hex rgb300 = some hex12C ∧ normalize_hex rgb300 ≠ none := by
  refine ⟨by decide, by decide⟩

/-- C3 (amended): `normalize_hex` returns nothing on inputs matching none
of its recognised forms (empty string, junk, empty rgb()), and no default
is substituted; but rgb() channels outside [0,255] are NOT rejected — the
result is a malformed hex string such as `#12C0000`, which the analysis
pipeline's color-cleaning step then filters out, so such values still
never reach pair generation or the contrast-ratio computation. -/
theorem C3_normalize :
    normalize_hex [] = none ∧
    normalize_hex ['z', 'z', 'z'] = none ∧
    normalize_hex ['r', 'g', 'b', '(', ')'] = none ∧
    normalize_hex rgb300 = some hex12C ∧
    cleanColor hex12C = none ∧
    generate_pairs (cleaned_colors [hex12C]) = [] := by
  refine ⟨by decide, by decide, by decide, by decide, by decide, by decide⟩

/-- C4 (confirmed): for canonical `#RRGGBB` colors, `contrast_ratio` is
symmetric, equals 1.0 on identical colors, and always lies in
[1.0, 21.0]; it is `round2` of `(Lmax + 0.05) / (Lmin + 0.05)` by
definition. -/
theorem C4_contrast_ratio (a b : List Char)
    (ha : validHex6 a = true) (hb : validHex6 b = true) :
    contrast_ratio a b = contrast_ratio b a ∧
    contrast_ratio a a = 1 ∧
    1 ≤ contrast_ratio a b ∧ contrast_ratio a b ≤ 21 := by
  obtain ⟨ca1, ca2, ca3⟩ := validHex6_channels ha
  obtain ⟨cb1, cb2, cb3⟩ := validHex6_channels hb
  have hrange := contrast_ratio_range ⟨ca1.1, ca2.1, ca3.1⟩ ⟨cb1.1, cb2.1, cb3.1⟩
  exact ⟨contrast_ratio_comm a b, contrast_ratio_self ⟨ca1.1, ca2.1, ca3.1⟩,
    hrange.1, hrange.2⟩

/-- Witness for C4 at white and black. -/
theorem C4_contrast_ratio_witness :
    validHex6 hexWhite = true ∧ validHex6 hexBlack = true ∧
    (contrast_ratio hexWhite hexBlack = contrast_ratio hexBlack hexWhite ∧
      contrast_ratio hexWhite hexWhite = 1 ∧
      1 ≤ contrast_ratio hexWhite hexBlack ∧ contrast_ratio hexWhite hexBlack ≤ 21) :=
  ⟨by decide, by decide, C4_contrast_ratio hexWhite hexBlack (by decide) (by decide)⟩

set_option maxRecDepth 8000 in
/-- C5 (counterexample): a palette of 21 distinct colors produces
380 = 20×19 ordered pairs, not 21×20 = 420 — the analysis truncates the
cleaned palette to 20 (not 24) before generating pairs. -/
theorem C5_counterexample :
    palette21.length = 21 ∧ palette21.Nodup ∧
    (generate_pairs (cleaned_colors palette21)).length = 380 ∧
    21 * (21 - 1) = 420 := by
  refine ⟨by decide, by decide, ?_, by norm_num⟩
  decide

/-- C5 (amended): the cleaned palette is truncated to at most 20 colors
(not 24) before pair generation, and pair generation emits exactly
n×(n−1) ordered pairs for the (truncated) palette of size n — so the
claimed count holds exactly for 2 ≤ n ≤ 20. -/
theorem C5_pair_count (colors : List (List Char)) :
    (cleaned_colors colors).length ≤ 20 ∧
    (generate_pairs (cleaned_colors colors)).length
      = (cleaned_colors colors).length * ((cleaned_colors colors).length - 1) := by
  constructor
  · unfold cleaned_colors
    exact List.length_take_le 20 _
  · exact generate_pairs_length _

/-- C6 (counterexample): the contrast score of
`accessibility_enhancements.compute_score_breakdown` at
(issue_count, total_pairs) = (1, 2) is 50, which matches neither the
simple variant (97) nor the weighted variant (70). -/
theorem C6_counterexample :
    AccessibilityEnhancements.contrast_score 1 2 = 50 ∧
    spec_simple_contrast 1 = 97 ∧
    spec_weighted_contrast 1 2 = 70 ∧
    (50 : ℚ) ≠ 97 ∧ (50 : ℚ) ≠ 70 := by
  refine ⟨?_, ?_, ?_, by norm_num, by norm_num⟩
  · unfold AccessibilityEnhancements.contrast_score
    rw [show (max 1 2 : ℕ) = 2 from rfl]
    rw [show (100 : ℚ) - ((1:ℕ):ℚ) / ((2:ℕ):ℚ) * 100 = 50 by push_cast; norm_num]
    rw [max_eq_right (by norm_num : (0:ℚ) ≤ 50)]
  · unfold spec_simple_contrast
    rw [show (min 60 (((1:ℕ):ℤ) * 3)) = 3 by simp]
    rw [show (100 : ℤ) - 3 = 97 by norm_num]
    rw [max_eq_right (by norm_num : (0:ℤ) ≤ 97)]
  · unfold spec_weighted_contrast
    rw [show (100 : ℚ) - ((1:ℕ):ℚ) / ((2:ℕ):ℚ) * 100 * 0.6 = 70 by push_cast; norm_num]
    rw [max_eq_right (by norm_num : (0:ℚ) ≤ 70)]

/-- C6 (amended): app.py's `compute_overall_score` (with no readability
penalty) equals the spec's simple variant, and
`accessibility_check.compute_score_breakdown`'s contrast component equals
the weighted variant; but `accessibility_enhancements`'
`compute_score_breakdown` uses a third formula,
`max(0, 100 − (issue_count / max(1, total_pairs)) × 100)` (no 0.6
factor).  All three always lie in [0, 100]. -/
theorem C6_score_formulas (n t : ℕ) :
    compute_overall_score n t none none = spec_simple_contrast n ∧
    AccessibilityCheck.contrast_breakdown n t = spec_weighted_contrast n t ∧
    AccessibilityEnhancements.contrast_score n t
      = max 0 (100 - ((n : ℚ) / ((max 1 t : ℕ) : ℚ)) * 100) ∧
    (0 ≤ compute_overall_score n t none none
      ∧ compute_overall_score n t none none ≤ 100) ∧
    (0 ≤ AccessibilityCheck.contrast_breakdown n t
      ∧ AccessibilityCheck.contrast_breakdown n t ≤ 100) ∧
    (0 ≤ AccessibilityEnhancements.contrast_score n t
      ∧ AccessibilityEnhancements.contrast_score n t ≤ 100) := by
  have happ : compute_overall_score n t none none = spec_simple_contrast n := by
    simp only [compute_overall_score, spec_simple_contrast]
    omega
  have hcheck : AccessibilityCheck.contrast_breakdown n t = spec_weighted_contrast n t := by
    unfold AccessibilityCheck.contrast_breakdown spec_weighted_contrast
    by_cases ht : 0 < t
    · rw [if_pos ht]
    · rw [if_neg ht]
      have ht0 : t = 0 := by omega
      subst ht0
      rw [show ((0:ℕ):ℚ) = 0 from rfl, div_zero]
      norm_num
  have hch_nonneg : (0:ℚ) ≤ (n : ℚ) / (t : ℚ) * 100 * 0.6 := by positivity
  have henh_nonneg : (0:ℚ) ≤ (n : ℚ) / ((max 1 t : ℕ) : ℚ) * 100 := by positivity
  refine ⟨happ, hcheck, rfl, ?_, ?_, ?_⟩
  · rw [happ]
    unfold spec_simple_contrast
    omega
  · rw [hcheck]
    unfold spec_weighted_contrast
    constructor
    · exact le_max_left _ _
    · refine max_le (by norm_num) ?_
      linarith
  · unfold AccessibilityEnhancements.contrast_score
    constructor
    · exact le_max_left _ _
    · refine max_le (by norm_num) ?_
      linarith

/-- C7 (confirmed): with an empty palette (no pairs, no issues) every
scorer returns a contrast score of exactly 100 and no division by zero
occurs: `accessibility_check` guards on `total_pairs > 0` (so the result
is 100 for ANY issue count when `total_pairs = 0`), and
`accessibility_enhancements` divides by `max(1, total_pairs)`, which is
always positive. -/
theorem C7_empty_palette :
    AccessibilityCheck.contrast_breakdown 0 0 = 100 ∧
    (∀ n : ℕ, AccessibilityCheck.contrast_breakdown n 0 = 100) ∧
    AccessibilityEnhancements.contrast_score 0 0 = 100 ∧
    compute_overall_score 0 0 none none = 100 ∧
    (∀ t : ℕ, (0 : ℚ) < ((max 1 t : ℕ) : ℚ)) := by
  refine ⟨?_, ?_, ?_, ?_, ?_⟩
  · unfold AccessibilityCheck.contrast_breakdown
    rw [if_neg (lt_irrefl 0)]
  · intro n
    unfold AccessibilityCheck.contrast_breakdown
    rw [if_neg (lt_irrefl 0)]
  · unfold AccessibilityEnhancements.contrast_score
    rw [show ((0:ℕ):ℚ) = 0 from rfl, zero_div, zero_mul, sub_zero]
    rw [max_eq_right (by norm_num : (0:ℚ) ≤ 100)]
  · rfl
  · intro t
    have : 0 < (max 1 t : ℕ) := by omega
    exact_mod_cast this

/-- C8 (confirmed): for a fixed pair the classifier is monotone in the
threshold, and hence for a fixed palette the issue count never decreases
when the threshold is raised (the issues at the lower threshold are a
subset of those at the higher one). -/
theorem C8_monotone (colors : List (List Char)) (fg bg : List Char)
    (t1 t2 : ℝ) (h : t1 ≤ t2) :
    (is_issue fg bg t1 = true → is_issue fg bg t2 = true) ∧
    issue_count colors t1 ≤ issue_count colors t2 := by
  have hmono : ∀ f b : List Char, is_issue f b t1 = true → is_issue f b t2 = true := by
    intro f b hf
    unfold is_issue at hf ⊢
    rw [Bool.or_eq_true] at hf ⊢
    rcases hf with hf | hf
    · exact Or.inl (decide_eq_true (lt_of_lt_of_le (of_decide_eq_true hf) h))
    · right
      rw [List.any_eq_true] at hf ⊢
      obtain ⟨m, hm, hdec⟩ := hf
      exact ⟨m, hm, decide_eq_true (lt_of_lt_of_le (of_decide_eq_true hdec) h)⟩
  refine ⟨hmono fg bg, ?_⟩
  unfold issue_count
  exact length_filter_mono _ _ (fun p hp => hmono p.1 p.2 hp) _

/-- Witness for C8 at thresholds 3 and 4.5 on the gray palette. -/
theorem C8_monotone_witness :
    (3 : ℝ) ≤ 4.5 ∧
    ((is_issue gray7 gray8 3 = true → is_issue gray7 gray8 4.5 = true) ∧
      issue_count [gray7, gray8] 3 ≤ issue_count [gray7, gray8] 4.5) :=
  ⟨by norm_num, C8_monotone [gray7, gray8] gray7 gray8 3 4.5 (by norm_num)⟩

/-- C9 (confirmed): the code's `MATRICES` are exactly the three fixed
matrices printed in the spec, and `colorblind_transform` computes exactly
the spec's pipeline — matrix product on channels normalised to [0,1],
clamp to [0,1], rescale to [0,255].  Both sides are pure functions, so
the computation is deterministic. -/
theorem C9_simulation :
    (∀ m, MATRICES m = spec_matrix m) ∧
    (∀ (m : Mode) (rgb : ℝ × ℝ × ℝ),
      colorblind_transform rgb (MATRICES m)
        = (spec_simulate m (chanOf rgb) 0, spec_simulate m (chanOf rgb) 1,
            spec_simulate m (chanOf rgb) 2)) := by
  have hmat : ∀ m, MATRICES m = spec_matrix m := by
    intro m
    cases m <;> rfl
  refine ⟨hmat, ?_⟩
  intro m rgb
  have hcomp : ∀ i : Fin 3,
      min 1 (max 0 (rgb.1 / 255 * MATRICES m i 0 + rgb.2.1 / 255 * MATRICES m i 1
        + rgb.2.2 / 255 * MATRICES m i 2)) * 255
      = spec_simulate m (chanOf rgb) i := by
    intro i
    unfold spec_simulate
    rw [Fin.sum_univ_three, ← hmat m, mul_comm]
    congr 2
    simp only [chanOf]
    ring
  exact Prod.ext (hcomp 0) (Prod.ext (hcomp 1) (hcomp 2))

/-- C10 (counterexample): Python's `int(s, 16)` accepts a sign, so the
string `-f-f-f` does NOT parse to the default (0,0,0) — it parses to
(-15,-15,-15) — and against `#FFFFFF` the returned ratio is 23.1,
outside the claimed range [1.0, 21.0]. -/
theorem C10_counterexample :
    hex_to_rgb minusF = (-15, -15, -15) ∧
    contrast_ratio minusF hexWhite = 23.1 ∧
    (21 : ℝ) < 23.1 :=
  ⟨by decide, cr_minusF, by norm_num⟩

/-- C10 (amended): `contrast_ratio` is total over arbitrary strings and
the embedded code never raises; a string none of whose slices parse
yields the default (0,0,0) (e.g. `zzzzzz`); and whenever both inputs
parse to nonnegative channels — in particular for every string without a
sign character — the result lies in [1.0, 21.0].  (Signed-digit strings
parse to negative channels and can exceed 21, as the counterexample
shows.) -/
theorem C10_total_range (s1 s2 : List Char)
    (h1 : channelsNonneg s1 = true) (h2 : channelsNonneg s2 = true) :
    (1 ≤ contrast_ratio s1 s2 ∧ contrast_ratio s1 s2 ≤ 21) ∧
    hex_to_rgb ['z', 'z', 'z', 'z', 'z', 'z'] = (0, 0, 0) := by
  simp only [channelsNonneg, Bool.and_eq_true, decide_eq_true_eq] at h1 h2
  exact ⟨contrast_ratio_range ⟨h1.1.1, h1.1.2, h1.2⟩ ⟨h2.1.1, h2.1.2, h2.2⟩, by decide⟩

/-- Witness for C10 (amended) at white and black. -/
theorem C10_total_range_witness :
    channelsNonneg hexWhite = true ∧ channelsNonneg hexBlack = true ∧
    ((1 ≤ contrast_ratio hexWhite hexBlack ∧ contrast_ratio hexWhite hexBlack ≤ 21) ∧
      hex_to_rgb ['z', 'z', 'z', 'z', 'z', 'z'] = (0, 0, 0)) :=
  ⟨by decide, by decide, C10_total_range hexWhite hexBlack (by decide) (by decide)⟩

end VisionChroma
